import Mathlib

/-!
Verification of the gnn-tutorial notebooks: a shallow embedding in Lean 4 of
the helper functions and model classes defined by the notebooks
`b1-transition.ipynb`, `b2-graphsage.ipynb` and `b3-vgae.ipynb`, together
with theorems settling the specification's claims about them.

Modelling conventions:
* Python lists and 1-D tensors become `List ℚ` (elementwise tensor
  operations become `List.map` / `List.zipWith`); a latent matrix `z`
  becomes `List (List ℚ)` (one row per node).
* Library calls whose numeric content is external (the encoder networks,
  `torch.exp`, `sklearn`'s metric functions, the per-batch optimizer step)
  are abstracted as function parameters; the notebook code that composes
  them is embedded faithfully.
* Randomness (`torch.randn_like`, seeded by `torch.manual_seed`) becomes an
  explicit noise argument.
* Side effects (file writes, reads, inline plot display, console prints,
  tensorboardX scalar logging) become an explicit `Effect` trace, and a
  Python `assert` failure becomes `Except.error`.
-/

namespace GnnTutorial

/-- Python slice `l[sidx:fidx]` on a list (for `0 ≤ sidx ≤ fidx`). -/
def pySlice (l : List γ) (sidx fidx : ℕ) : List γ :=
  (l.drop sidx).take (fidx - sidx)

/-- Embedding of `get_batches(xs, ys, batch_size)` from `b1-transition.ipynb`:
`num = len(xs)`, `num_batches = math.ceil(num / batch_size)`, and for
`i in range(num_batches - 1)` the slice `xs[batch_size*i : min(batch_size*(i+1), num)]`
is appended to `batches_x` (likewise for `ys`).  Ceiling division on `ℕ` is
`(num + b - 1) / b`. -/
def get_batches (xs : List α) (ys : List β) (batch_size : ℕ) :
    List (List α) × List (List β) :=
  let num := xs.length
  let num_batches := (num + batch_size - 1) / batch_size
  ((List.range (num_batches - 1)).map (fun i =>
      pySlice xs (batch_size * i) (min (batch_size * (i + 1)) num)),
   (List.range (num_batches - 1)).map (fun i =>
      pySlice ys (batch_size * i) (min (batch_size * (i + 1)) num)))

/-- The number of batches `get_batches` computes, `ceil (len xs / b)`. -/
def num_batches_of (len b : ℕ) : ℕ := (len + b - 1) / b

theorem num_batches_pred_mul_lt (len b : ℕ) (hlen : 1 ≤ len) (hb : 1 ≤ b) :
    b * (num_batches_of len b - 1) < len := by
  unfold num_batches_of
  have hdiv := Nat.div_mul_le_self (len + b - 1) b
  have hpos : 1 ≤ (len + b - 1) / b :=
    (Nat.one_le_div_iff (by omega)).mpr (by omega)
  have e : b * ((len + b - 1) / b - 1) = (len + b - 1) / b * b - b := by
    rw [mul_comm, Nat.sub_mul, one_mul]
  have hbt : b ≤ (len + b - 1) / b * b := by
    calc b = 1 * b := (one_mul b).symm
    _ ≤ (len + b - 1) / b * b := Nat.mul_le_mul_right b hpos
  omega

theorem flatten_sliced_range (xs : List α) (b : ℕ) (n : ℕ)
    (h : b * n ≤ xs.length) :
    ((List.range n).map (fun i =>
        pySlice xs (b * i) (min (b * (i + 1)) xs.length))).flatten
      = xs.take (b * n) := by
  induction n with
  | zero => simp
  | succ n ih =>
    have hn : b * n ≤ xs.length := by
      have hmono : b * n ≤ b * (n + 1) := Nat.mul_le_mul_left b (by omega)
      omega
    rw [List.range_succ, List.map_append, List.flatten_append, ih hn]
    have hmin : min (b * (n + 1)) xs.length = b * (n + 1) := by omega
    have htake : b * (n + 1) = b * n + b := by ring
    simp only [List.map_cons, List.map_nil, List.flatten_cons, List.flatten_nil,
      List.append_nil, hmin, pySlice]
    rw [htake, List.take_add]
    congr 1
    congr 1
    omega

/-- Claim C1: for equal-length lists `xs`, `ys` with `1 ≤ len` and batch size
`1 ≤ b`, `get_batches` returns exactly `ceil (len / b) - 1` batches on each
side, whose concatenations are exactly the first `b * (ceil (len / b) - 1)`
elements of `xs` (resp. `ys`) in order; in particular when `len ≤ b` it
returns two empty lists, so the last partial (or only) batch is never
produced for callers such as `train_stargazer_gnn` and `test_stargazer_gnn`. -/
theorem get_batches_drops_last_batch {α β : Type} (xs : List α) (ys : List β)
    (b : ℕ) (hlen : xs.length = ys.length) (h1 : 1 ≤ xs.length) (hb : 1 ≤ b) :
    (get_batches xs ys b).1.length = num_batches_of xs.length b - 1 ∧
    (get_batches xs ys b).2.length = num_batches_of xs.length b - 1 ∧
    (get_batches xs ys b).1.flatten
      = xs.take (b * (num_batches_of xs.length b - 1)) ∧
    (get_batches xs ys b).2.flatten
      = ys.take (b * (num_batches_of xs.length b - 1)) ∧
    (xs.length ≤ b → get_batches xs ys b = ([], [])) := by
  have hle : b * (num_batches_of xs.length b - 1) ≤ xs.length :=
    Nat.le_of_lt (num_batches_pred_mul_lt xs.length b h1 hb)
  refine ⟨?_, ?_, ?_, ?_, ?_⟩
  · simp [get_batches, num_batches_of]
  · simp [get_batches, num_batches_of]
  · simpa [get_batches, num_batches_of] using
      flatten_sliced_range xs b (num_batches_of xs.length b - 1) hle
  · have hle' : b * (num_batches_of xs.length b - 1) ≤ ys.length := hlen ▸ hle
    have := flatten_sliced_range ys b (num_batches_of ys.length b - 1)
      (by rw [← hlen]; exact hle)
    simpa [get_batches, num_batches_of, hlen] using this
  · intro hsmall
    have hnb : num_batches_of xs.length b = 1 := by
      unfold num_batches_of
      exact Nat.div_eq_of_lt_le (by omega) (by omega)
    simp [get_batches, num_batches_of] at hnb ⊢
    simp [hnb]

/-- Witness for C1 at `xs = [1,2,3]`, `ys = [4,5,6]`, `b = 2`. -/
theorem get_batches_drops_last_batch_witness :
    ([1, 2, 3] : List ℕ).length = ([4, 5, 6] : List ℕ).length ∧
    1 ≤ ([1, 2, 3] : List ℕ).length ∧ (1 : ℕ) ≤ 2 ∧
    (get_batches ([1, 2, 3] : List ℕ) ([4, 5, 6] : List ℕ) 2).1.flatten
      = ([1, 2, 3] : List ℕ).take
          (2 * (num_batches_of ([1, 2, 3] : List ℕ).length 2 - 1)) :=
  ⟨rfl, by decide, by decide,
    (get_batches_drops_last_batch [1, 2, 3] [4, 5, 6] 2 rfl (by decide)
      (by decide)).2.2.1⟩

/-- Observable side effects of the notebook code: file writes and reads,
inline plot display, console prints, and `tensorboardX` scalar logging. -/
inductive Effect : Type
  | fileWrite (path : String)
  | fileRead (path : String)
  | plotShow
  | consolePrint (msg : String)
  | scalarLog (tag : String)
  deriving DecidableEq

/-- The inner batch loop of `train_stargazer_gnn` (`b1-transition.ipynb`):
for each batch index, `batch_step` performs the library work of one batch
(forward pass, `MSELoss`, `opt.zero_grad()`, `loss.backward()`, `opt.step()`)
on the optimizer/GNN state and returns `loss.item()`; the losses are
accumulated in order. -/
def run_batches {σ : Type} (batch_step : σ → ℕ → ℚ × σ) :
    List ℕ → σ → List ℚ × σ
  | [], s => ([], s)
  | i :: rest, s =>
    let r := batch_step s i
    let t := run_batches batch_step rest r.2
    (r.1 :: t.1, t.2)

/-- One epoch of `train_stargazer_gnn`: run every batch, then divide the
accumulated `epoch_loss` by `len(batches_x)`. -/
def run_epoch {σ : Type} (batch_step : σ → ℕ → ℚ × σ) (num_batches : ℕ)
    (s : σ) : ℚ × σ :=
  let t := run_batches batch_step (List.range num_batches) s
  (t.1.sum / (num_batches : ℚ), t.2)

/-- Embedding of `train_stargazer_gnn(gnn, num_epochs)` from
`b1-transition.ipynb`: `for epoch_index in range(num_epochs)` run every batch,
record the per-epoch loss, and return `epoch_losses` (with the final
trained state). -/
def train_stargazer_gnn {σ : Type} (batch_step : σ → ℕ → ℚ × σ)
    (num_batches : ℕ) : ℕ → σ → List ℚ × σ
  | 0, s => ([], s)
  | n + 1, s =>
    let e := run_epoch batch_step num_batches s
    let t := train_stargazer_gnn batch_step num_batches n e.2
    (e.1 :: t.1, t.2)

/-- Embedding of `train(model, optimizer, n_epochs)` from
`b2-graphsage.ipynb`: `for epoch in range(n_epochs)`, `epoch_step` performs
the library work of one epoch (forward pass, loss, backward pass, optimizer
step, validation accuracy) and yields the epoch's `output_train` logits,
which are appended to `all_train_logits`; the final state and the collected
logits are returned. -/
def sage_train {σ L : Type} (epoch_step : σ → σ × L) : ℕ → σ → σ × List L
  | 0, s => (s, [])
  | n + 1, s =>
    let r := epoch_step s
    let t := sage_train epoch_step n r.1
    (t.1, r.2 :: t.2)

/-- The effects emitted by one epoch of `train_gae` (`b3-vgae.ipynb`): three
`writer.add_scalar` calls, plus a console print when `(epoch+1) % 100 == 0`. -/
def gae_epoch_trace (epoch : ℕ) : List Effect :=
  [Effect.scalarLog "loss", Effect.scalarLog "AUC", Effect.scalarLog "AP"] ++
    (if (epoch + 1) % 100 = 0 then [Effect.consolePrint "Epoch metrics"]
     else [])

/-- One iteration of the `for epoch in range(0, 200)` loop of `train_gae`:
`epoch_step` performs `zero_grad`, `encode`, `recon_loss`, `backward` and
`step` on the model/optimizer state and yields the epoch loss; `evalF` is
`test(gae, data.test_pos_edge_index, data.test_neg_edge_index)`; the running
`(auc, ap)` pair is overwritten each epoch. -/
def gae_epoch {σ : Type} (epoch_step : σ → ℚ × σ) (evalF : σ → ℚ × ℚ)
    (st : Option (ℚ × ℚ) × σ × List Effect) (epoch : ℕ) :
    Option (ℚ × ℚ) × σ × List Effect :=
  let r := epoch_step st.2.1
  let m := evalF r.2
  (some m, r.2, st.2.2 ++ gae_epoch_trace epoch)

/-- Embedding of `train_gae()` from `b3-vgae.ipynb`: `auc, ap = None, None`,
then 200 epochs, returning the `(auc, ap)` of the last epoch together with
the final state and the emitted effect trace. -/
def train_gae {σ : Type} (epoch_step : σ → ℚ × σ) (evalF : σ → ℚ × ℚ)
    (s0 : σ) : Option (ℚ × ℚ) × σ × List Effect :=
  (List.range 200).foldl (gae_epoch epoch_step evalF)
    (none, s0, [Effect.consolePrint "training gae"])

theorem train_stargazer_gnn_eq {σ : Type} (bs : σ → ℕ → ℚ × σ) (nb : ℕ) :
    ∀ (n : ℕ) (s : σ),
      train_stargazer_gnn bs nb n s
        = ((List.range n).map (fun k =>
              (run_batches bs (List.range nb)
                ((fun t => (run_epoch bs nb t).2)^[k] s)).1.sum / (nb : ℚ)),
           (fun t => (run_epoch bs nb t).2)^[n] s) := by
  intro n
  induction n with
  | zero => intro s; simp [train_stargazer_gnn]
  | succ n ih =>
    intro s
    rw [List.range_succ_eq_map, List.map_cons, List.map_map]
    simp only [train_stargazer_gnn, ih]
    rfl

theorem sage_train_eq {σ L : Type} (es : σ → σ × L) :
    ∀ (n : ℕ) (s : σ),
      sage_train es n s
        = ((fun t => (es t).1)^[n] s,
           (List.range n).map (fun k => (es ((fun t => (es t).1)^[k] s)).2)) := by
  intro n
  induction n with
  | zero => intro s; simp [sage_train]
  | succ n ih =>
    intro s
    rw [List.range_succ_eq_map, List.map_cons, List.map_map]
    simp only [sage_train, ih]
    rfl

theorem train_gae_loop_eq {σ : Type} (gs : σ → ℚ × σ) (evalF : σ → ℚ × ℚ) :
    ∀ (n : ℕ) (a0 : Option (ℚ × ℚ)) (s : σ) (tr : List Effect),
      (List.range n).foldl (gae_epoch gs evalF) (a0, s, tr)
        = (if n = 0 then a0 else some (evalF ((fun t => (gs t).2)^[n] s)),
           (fun t => (gs t).2)^[n] s,
           tr ++ ((List.range n).map gae_epoch_trace).flatten) := by
  intro n
  induction n with
  | zero => intro a0 s tr; simp
  | succ n ih =>
    intro a0 s tr
    rw [List.range_succ, List.foldl_append, ih]
    rw [Function.iterate_succ_apply']
    simp [gae_epoch, List.range_succ, List.flatten_append, List.append_assoc]

/-- Claim C2: every training loop runs for a fixed, predetermined number of
iterations.  `train_stargazer_gnn` over `num_epochs` epochs returns exactly
`num_epochs` per-epoch losses, the `k`-th being the sum of that epoch's batch
losses divided by the number of batches; `train` from `b2-graphsage.ipynb`
executes exactly `n_epochs` epochs (its state is the `n_epochs`-fold iterate
of the epoch step and it collects one logit record per epoch); and
`train_gae` executes exactly 200 epochs and returns the AUC/AP pair of the
final (200th) epoch. -/
theorem training_loops_fixed_iteration_count {σ L : Type}
    (batch_step : σ → ℕ → ℚ × σ) (num_batches : ℕ) (num_epochs : ℕ) (gnn : σ)
    (epoch_step : σ → σ × L) (gae_step : σ → ℚ × σ) (evalF : σ → ℚ × ℚ) :
    ((train_stargazer_gnn batch_step num_batches num_epochs gnn).1.length
        = num_epochs) ∧
    ((train_stargazer_gnn batch_step num_batches num_epochs gnn).1
        = (List.range num_epochs).map (fun k =>
            (run_batches batch_step (List.range num_batches)
              ((fun t => (run_epoch batch_step num_batches t).2)^[k] gnn)).1.sum
              / (num_batches : ℚ))) ∧
    ((sage_train epoch_step num_epochs gnn).2.length = num_epochs) ∧
    ((sage_train epoch_step num_epochs gnn).1
        = (fun t => (epoch_step t).1)^[num_epochs] gnn) ∧
    ((train_gae gae_step evalF gnn).1
        = some (evalF ((fun t => (gae_step t).2)^[200] gnn))) ∧
    ((train_gae gae_step evalF gnn).2.1
        = (fun t => (gae_step t).2)^[200] gnn) := by
  have h1 := train_stargazer_gnn_eq batch_step num_batches num_epochs gnn
  have h2 := sage_train_eq epoch_step num_epochs gnn
  have h3 := train_gae_loop_eq gae_step evalF 200 none gnn
    [Effect.consolePrint "training gae"]
  refine ⟨?_, ?_, ?_, ?_, ?_, ?_⟩
  · rw [h1]; simp
  · rw [h1]
  · rw [h2]; simp
  · rw [h2]
  · unfold train_gae; rw [h3]; rfl
  · unfold train_gae; rw [h3]

/-- The row inner product `(z[a] * z[b]).sum(dim=1)` for one node pair. -/
def dot (a b : List ℚ) : ℚ := (List.zipWith (· * ·) a b).sum

/-- Embedding of `InnerProductDecoder.forward(z, edge_index, sigmoid)` from
`b3-vgae.ipynb`: `value = (z[edge_index[0]] * z[edge_index[1]]).sum(dim=1)`,
returning `torch.sigmoid(value)` if `sigmoid` else `value`.  The latent
matrix `z` is a list of node rows; `torch.sigmoid` is the abstracted
elementwise function `sigm`. -/
def innerProductDecoder (sigm : ℚ → ℚ) (z : List (List ℚ))
    (edge_index : List (ℕ × ℕ)) (sigmoid : Bool) : List ℚ :=
  edge_index.map (fun e =>
    let value := dot (z.getD e.1 []) (z.getD e.2 [])
    if sigmoid then sigm value else value)

/-- Embedding of `GAE.test(z, pos_edge_index, neg_edge_index)` from
`b3-vgae.ipynb`: `pos_y = z.new_ones(pos_edge_index.size(1))`,
`neg_y = z.new_zeros(neg_edge_index.size(1))`, `y = torch.cat([pos_y, neg_y])`,
`pred = torch.cat([decoder(z, pos, sigmoid=True), decoder(z, neg, sigmoid=True)])`,
returning `(roc_auc_score(y, pred), average_precision_score(y, pred))` with
the two `sklearn` metrics abstracted as function parameters. -/
def GAE_test (sigm : ℚ → ℚ)
    (roc_auc_score average_precision_score : List ℚ → List ℚ → ℚ)
    (z : List (List ℚ)) (pos_edge_index neg_edge_index : List (ℕ × ℕ)) :
    ℚ × ℚ :=
  let pos_y := List.replicate pos_edge_index.length (1 : ℚ)
  let neg_y := List.replicate neg_edge_index.length (0 : ℚ)
  let y := pos_y ++ neg_y
  let pos_pred := innerProductDecoder sigm z pos_edge_index true
  let neg_pred := innerProductDecoder sigm z neg_edge_index true
  let pred := pos_pred ++ neg_pred
  (roc_auc_score y pred, average_precision_score y pred)

/-- Claim C3: `GAE.test` evaluates against a ground-truth vector of one `1`
per positive edge followed by one `0` per negative edge, and a score vector
of the sigmoid decoder outputs for the positive edges followed by those for
the negative edges, returning the `(ROC AUC, average precision)` pair
computed from exactly these two vectors. -/
theorem GAE_test_ground_truth_and_scores (sigm : ℚ → ℚ)
    (roc_auc_score average_precision_score : List ℚ → List ℚ → ℚ)
    (z : List (List ℚ)) (pos neg : List (ℕ × ℕ)) :
    GAE_test sigm roc_auc_score average_precision_score z pos neg
      = (roc_auc_score
           (List.replicate pos.length 1 ++ List.replicate neg.length 0)
           (pos.map (fun e => sigm (dot (z.getD e.1 []) (z.getD e.2 []))) ++
            neg.map (fun e => sigm (dot (z.getD e.1 []) (z.getD e.2 [])))),
         average_precision_score
           (List.replicate pos.length 1 ++ List.replicate neg.length 0)
           (pos.map (fun e => sigm (dot (z.getD e.1 []) (z.getD e.2 []))) ++
            neg.map (fun e => sigm (dot (z.getD e.1 []) (z.getD e.2 []))))) := by
  simp [GAE_test, innerProductDecoder]

/-- The fields of a `torch_geometric.data.Data` object the notebook reads:
`edge_index` (set to `None` by `train_test_split_edges`), `num_nodes`, and
the class vector `y`. -/
structure PyGData where
  edge_index : Option (List (ℕ × ℕ))
  num_nodes : ℕ
  y : List ℕ
  deriving DecidableEq

/-- Embedding of `plot(data, outfile='./graph.eps')` from `b3-vgae.ipynb`:
the function first runs
`assert data.edge_index is not None, 'cannot plot after train_test_split_edges has been called'`;
on success it saves the figure with `ig.plot(g, outfile, ...)`, re-reads it
with `Image.open(outfile)` and displays it with `plt.show()`.  The assertion
failure is an uncaught exception carrying no effect trace. -/
def plot (data : PyGData) (outfile : String) : Except String (List Effect) :=
  match data.edge_index with
  | none =>
      Except.error "cannot plot after train_test_split_edges has been called"
  | some _ =>
      Except.ok [Effect.fileWrite outfile, Effect.fileRead outfile,
        Effect.plotShow]

/-- The calling cell `if data.num_nodes < 50000 and not IN_COLAB: plot(data)`
of `b3-vgae.ipynb`, which wraps `plot` in no exception handler. -/
def plot_cell (in_colab : Bool) (data : PyGData) : Except String (List Effect) :=
  if data.num_nodes < 50000 ∧ in_colab = false then plot data "./graph.eps"
  else Except.ok []

/-- Claim C4: no exception is caught: `plot(data)` raises the assertion
failure whenever `data.edge_index` is `None` (e.g. after
`train_test_split_edges`), producing no plot output and no state change (no
effect trace accompanies the error), and the failure propagates unchanged
through the calling cell. -/
theorem plot_assert_propagates (data : PyGData) (outfile : String)
    (h : data.edge_index = none) :
    plot data outfile
      = Except.error
          "cannot plot after train_test_split_edges has been called" ∧
    (∀ tr : List Effect, plot data outfile ≠ Except.ok tr) ∧
    (data.num_nodes < 50000 → plot_cell false data
      = Except.error
          "cannot plot after train_test_split_edges has been called") := by
  refine ⟨?_, ?_, ?_⟩
  · simp [plot, h]
  · intro tr
    simp [plot, h]
  · intro hn
    simp [plot_cell, plot, h, hn]

/-- Witness for C4 at a concrete `Data` whose `edge_index` is `None`. -/
theorem plot_assert_propagates_witness :
    ({ edge_index := none, num_nodes := 10, y := [] } : PyGData).edge_index
        = none ∧
    plot { edge_index := none, num_nodes := 10, y := [] } "./graph.eps"
      = Except.error
          "cannot plot after train_test_split_edges has been called" ∧
    plot_cell false { edge_index := none, num_nodes := 10, y := [] }
      = Except.error
          "cannot plot after train_test_split_edges has been called" :=
  ⟨rfl,
    (plot_assert_propagates { edge_index := none, num_nodes := 10, y := [] }
      "./graph.eps" rfl).1,
    (plot_assert_propagates { edge_index := none, num_nodes := 10, y := [] }
      "./graph.eps" rfl).2.2 (by norm_num)⟩

/-- The constant `MAX_LOGVAR = 10` of `b3-vgae.ipynb`. -/
def MAX_LOGVAR : ℚ := 10

/-- `tensor.clamp(max=c)` on a latent matrix (list of node rows),
elementwise. -/
def clampMax (m : List (List ℚ)) (c : ℚ) : List (List ℚ) :=
  m.map (fun row => row.map (fun x => min x c))

/-- Embedding of `VGAE.reparametrize(mu, logvar)` from `b3-vgae.ipynb`: in
training mode `mu + torch.randn_like(logvar) * torch.exp(logvar)` with the
random draw made explicit as `noise` and `torch.exp` abstracted as `expF`;
otherwise `mu` is returned unchanged. -/
def reparametrize (expF : ℚ → ℚ) (training : Bool)
    (mu logvar noise : List (List ℚ)) : List (List ℚ) :=
  if training then
    List.zipWith
      (fun mr p => List.zipWith (fun m q => m + q.2 * expF q.1) mr (p.1.zip p.2))
      mu (logvar.zip noise)
  else mu

/-- Embedding of `VGAE.encode` from `b3-vgae.ipynb`: the encoder (abstracted
as its output pair `enc_out = (mu, logvar)`) is run, `__logvar__` is stored
clamped with `clamp(max=MAX_LOGVAR)`, `__mu__` is stored unchanged, and
`z = reparametrize(__mu__, __logvar__)` is returned together with the stored
pair. -/
def VGAE_encode (expF : ℚ → ℚ) (training : Bool)
    (enc_out : List (List ℚ) × List (List ℚ)) (noise : List (List ℚ)) :
    List (List ℚ) × List (List ℚ) × List (List ℚ) :=
  let mu := enc_out.1
  let logvar := clampMax enc_out.2 MAX_LOGVAR
  (reparametrize expF training mu logvar noise, mu, logvar)

/-- The `mu` actually used by `VGAE.kl_loss`:
`mu = self.__mu__ if mu is None else mu` (never clamped). -/
def kl_used_mu (stored_mu : List (List ℚ)) (muArg : Option (List (List ℚ))) :
    List (List ℚ) :=
  muArg.getD stored_mu

/-- The log-variance actually used by `VGAE.kl_loss`:
`logvar = self.__logvar__ if logvar is None else logvar.clamp(max=MAX_LOGVAR)`. -/
def kl_used_logvar (stored_logvar : List (List ℚ))
    (lvArg : Option (List (List ℚ))) : List (List ℚ) :=
  match lvArg with
  | none => stored_logvar
  | some lv => clampMax lv MAX_LOGVAR

/-- Mean of a list of rationals (`torch.mean` over node rows). -/
def listMean (l : List ℚ) : ℚ := l.sum / l.length

/-- Embedding of `VGAE.kl_loss(mu, logvar)` from `b3-vgae.ipynb`:
`-0.5 * mean(sum(1 + logvar - mu**2 - logvar.exp(), dim=1))` over the
argument-selected (and, for a passed `logvar`, clamped) latent matrices. -/
def kl_loss (expF : ℚ → ℚ) (stored_mu stored_logvar : List (List ℚ))
    (muArg lvArg : Option (List (List ℚ))) : ℚ :=
  let mu := kl_used_mu stored_mu muArg;
  let logvar := kl_used_logvar stored_logvar lvArg;
  -(1 / 2) * listMean (List.zipWith
    (fun mr lr => (List.zipWith (fun m l => 1 + l - m ^ 2 - expF l) mr lr).sum)
    mu logvar)

theorem zipWith_row_clamped (expF : ℚ → ℚ) (mr lvrow nrow : List ℚ) :
    List.zipWith (fun m q => m + q.2 * expF q.1) mr
        ((lvrow.map (fun x => min x MAX_LOGVAR)).zip nrow)
      = List.zipWith (fun m q => m + q.2 * expF (min q.1 MAX_LOGVAR)) mr
          (lvrow.zip nrow) := by
  rw [List.zip_map_left, List.zipWith_map_right]
  simp

/-- Claim C6: outside training mode `reparametrize` returns `mu` exactly, so
`VGAE.encode` in evaluation mode deterministically returns the encoder's mean
output; in training mode the noise enters and the result is
`mu + noise * exp(logvar)` with `logvar` already clamped to `MAX_LOGVAR`. -/
theorem reparametrize_eval_returns_mu (expF : ℚ → ℚ)
    (mu logvar noise : List (List ℚ))
    (enc_out : List (List ℚ) × List (List ℚ)) :
    reparametrize expF false mu logvar noise = mu ∧
    (VGAE_encode expF false enc_out noise).1 = enc_out.1 ∧
    (VGAE_encode expF true enc_out noise).1
      = List.zipWith
          (fun mr p => List.zipWith
            (fun m q => m + q.2 * expF (min q.1 MAX_LOGVAR)) mr (p.1.zip p.2))
          enc_out.1 (enc_out.2.zip noise) := by
  refine ⟨rfl, rfl, ?_⟩
  show List.zipWith _ enc_out.1 ((clampMax enc_out.2 MAX_LOGVAR).zip noise) = _
  rw [clampMax, List.zip_map_left, List.zipWith_map_right]
  congr 1
  funext mr p
  cases p with
  | mk lvrow nrow => exact zipWith_row_clamped expF mr lvrow nrow

/-- Claim C5: the training/evaluation pipeline is not a deterministic
function of the dataset alone: with the encoder output (hence the dataset)
held fixed, two different draws of the random noise consumed by
`VGAE.encode` in training mode (as in every epoch of `train_vgae`) produce
different latent matrices, so successive runs that consume successive
random-generator states may report different downstream metric values. -/
theorem training_pipeline_noise_dependent (expF : ℚ → ℚ) (h : expF 0 = 1) :
    ∃ (mu logvar n1 n2 : List (List ℚ)),
      (VGAE_encode expF true (mu, logvar) n1).1
        ≠ (VGAE_encode expF true (mu, logvar) n2).1 := by
  refine ⟨[[0]], [[0]], [[0]], [[1]], ?_⟩
  have hmin : min (0 : ℚ) MAX_LOGVAR = 0 := by
    rw [MAX_LOGVAR]; norm_num
  simp [VGAE_encode, reparametrize, clampMax, hmin, h]

/-- Witness for C5, discharging the hypothesis `expF 0 = 1` with
`expF = fun x => 1`. -/
theorem training_pipeline_noise_dependent_witness :
    (fun _ : ℚ => (1 : ℚ)) 0 = 1 ∧
    ∃ (mu logvar n1 n2 : List (List ℚ)),
      (VGAE_encode (fun _ => (1 : ℚ)) true (mu, logvar) n1).1
        ≠ (VGAE_encode (fun _ => (1 : ℚ)) true (mu, logvar) n2).1 :=
  ⟨rfl, training_pipeline_noise_dependent (fun _ => (1 : ℚ)) rfl⟩

theorem clampMax_le (m : List (List ℚ)) (c : ℚ) :
    ∀ row ∈ clampMax m c, ∀ x ∈ row, x ≤ c := by
  intro row hrow x hx
  rcases List.mem_map.mp hrow with ⟨r, _, rfl⟩
  rcases List.mem_map.mp hx with ⟨y, _, rfl⟩
  exact min_le_right y c

/-- Claim C8: the log-variance used in every call of `VGAE.kl_loss` is
bounded above by `MAX_LOGVAR = 10` in every component: `VGAE.encode` stores
`__logvar__` clamped to at most `MAX_LOGVAR`, an explicitly passed `logvar`
is clamped to the same maximum before the loss is computed, and `mu` is
never clamped (the `mu` used is exactly the stored or passed one). -/
theorem kl_loss_logvar_clamped (expF : ℚ → ℚ) (training : Bool)
    (enc_out : List (List ℚ) × List (List ℚ)) (noise : List (List ℚ))
    (muArg lvArg : Option (List (List ℚ))) :
    (∀ row ∈ (VGAE_encode expF training enc_out noise).2.2, ∀ x ∈ row,
        x ≤ MAX_LOGVAR) ∧
    (∀ row ∈ kl_used_logvar (VGAE_encode expF training enc_out noise).2.2
        lvArg, ∀ x ∈ row, x ≤ MAX_LOGVAR) ∧
    kl_used_mu (VGAE_encode expF training enc_out noise).2.1 muArg
      = muArg.getD enc_out.1 ∧
    (VGAE_encode expF training enc_out noise).2.1 = enc_out.1 := by
  have hstored : ∀ row ∈ (VGAE_encode expF training enc_out noise).2.2,
      ∀ x ∈ row, x ≤ MAX_LOGVAR := by
    show ∀ row ∈ clampMax enc_out.2 MAX_LOGVAR, ∀ x ∈ row, x ≤ MAX_LOGVAR
    exact clampMax_le enc_out.2 MAX_LOGVAR
  refine ⟨hstored, ?_, rfl, rfl⟩
  cases lvArg with
  | none => exact hstored
  | some lv => exact clampMax_le lv MAX_LOGVAR

/-- Witness for C8: with `logvar = [[15]]` passed explicitly, the value the
loss uses is `min 15 10 = 10 ≤ MAX_LOGVAR`. -/
theorem kl_loss_logvar_clamped_witness :
    ([10] : List ℚ) ∈ kl_used_logvar
        ((VGAE_encode (fun _ => (1 : ℚ)) false ([[3]], [[20]]) [[0]]).2.2)
        (some [[15]]) ∧
    (10 : ℚ) ∈ ([10] : List ℚ) ∧ (10 : ℚ) ≤ MAX_LOGVAR := by
  have h1 : ([10] : List ℚ) ∈ kl_used_logvar
      ((VGAE_encode (fun _ => (1 : ℚ)) false ([[3]], [[20]]) [[0]]).2.2)
      (some [[15]]) := by
    have : kl_used_logvar
        ((VGAE_encode (fun _ => (1 : ℚ)) false ([[3]], [[20]]) [[0]]).2.2)
        (some [[15]]) = [[min 15 MAX_LOGVAR]] := rfl
    rw [this]
    have hm : min (15 : ℚ) MAX_LOGVAR = 10 := by rw [MAX_LOGVAR]; norm_num
    rw [hm]
    exact List.mem_singleton.mpr rfl
  have h2 : (10 : ℚ) ∈ ([10] : List ℚ) := List.mem_singleton.mpr rfl
  exact ⟨h1, h2,
    (kl_loss_logvar_clamped (fun _ => (1 : ℚ)) false ([[3]], [[20]]) [[0]]
      none (some [[15]])).2.1 [10] h1 10 h2⟩

/-- A DGL graph: a number of vertices and a list of directed edges. -/
structure DGLGraph where
  num_nodes : ℕ
  edges : List (ℕ × ℕ)
  deriving DecidableEq

/-- Models the library constructor `dgl.graph((u, v))`: the directed edges
are the pairs `(u[i], v[i])`, and the number of vertices is inferred as one
more than the largest vertex id appearing in `u` or `v` (`0` when there are
no edges). -/
def dgl_graph (u v : List ℕ) : DGLGraph :=
  { num_nodes := (u ++ v).foldr (fun a b => max (a + 1) b) 0,
    edges := u.zip v }

/-- Embedding of `make_stargazer_graph` from `b1-transition.ipynb` (with the
edge array of the selected graph index as input): `src = edges[:,0]`,
`dst = edges[:,1]`, `u = concatenate([src, dst])`,
`v = concatenate([dst, src])`, returning `dgl.graph((u, v))`. -/
def make_stargazer_graph (edges : List (ℕ × ℕ)) : DGLGraph :=
  let src := edges.map Prod.fst;
  let dst := edges.map Prod.snd;
  let u := src ++ dst;
  let v := dst ++ src;
  dgl_graph u v

/-- Embedding of `make_webmluser_graph(edges)` from `b1-transition.ipynb`:
identical construction to `make_stargazer_graph` (the `.astype(int)` casts
are identities on integer vertex ids). -/
def make_webmluser_graph (edges : List (ℕ × ℕ)) : DGLGraph :=
  let src := edges.map Prod.fst;
  let dst := edges.map Prod.snd;
  let u := src ++ dst;
  let v := dst ++ src;
  dgl_graph u v

theorem mem_le_foldr_max (l : List ℕ) (x : ℕ) (hx : x ∈ l) :
    x + 1 ≤ l.foldr (fun a b => max (a + 1) b) 0 := by
  induction l with
  | nil => cases hx
  | cons a t ih =>
    rcases List.mem_cons.mp hx with h | h
    · subst h; exact le_max_left _ _
    · exact le_trans (ih h) (le_max_right _ _)

theorem zip_maps_eq_self (es : List (ℕ × ℕ)) :
    (es.map Prod.fst).zip (es.map Prod.snd) = es := by
  have h := List.zip_unzip es
  rwa [List.unzip_eq_map] at h

theorem zip_maps_eq_swap (es : List (ℕ × ℕ)) :
    (es.map Prod.snd).zip (es.map Prod.fst) = es.map Prod.swap := by
  have h := zip_maps_eq_self (es.map Prod.swap)
  rwa [List.map_map, List.map_map] at h

theorem make_stargazer_graph_edges (es : List (ℕ × ℕ)) :
    (make_stargazer_graph es).edges = es ++ es.map Prod.swap := by
  show ((es.map Prod.fst) ++ (es.map Prod.snd)).zip
      ((es.map Prod.snd) ++ (es.map Prod.fst)) = _
  rw [List.zip_append (by simp), zip_maps_eq_self, zip_maps_eq_swap]

/-- Claim C7: every graph built by `make_stargazer_graph` or
`make_webmluser_graph` has edges referencing valid vertex ids (both
endpoints of every directed edge are below `num_nodes`); for every input
edge `[a, b]` both directed edges `(a, b)` and `(b, a)` are present; and the
graph has exactly twice as many directed edges as input edge pairs
(`make_webmluser_graph` performs the identical construction). -/
theorem make_graphs_bidirectional_valid (es : List (ℕ × ℕ)) :
    (∀ e ∈ (make_stargazer_graph es).edges,
        e.1 < (make_stargazer_graph es).num_nodes ∧
        e.2 < (make_stargazer_graph es).num_nodes) ∧
    (∀ p ∈ es, p ∈ (make_stargazer_graph es).edges ∧
        (p.2, p.1) ∈ (make_stargazer_graph es).edges) ∧
    (make_stargazer_graph es).edges.length = 2 * es.length ∧
    make_webmluser_graph es = make_stargazer_graph es := by
  refine ⟨?_, ?_, ?_, rfl⟩
  · intro e he
    have hz : (e.1, e.2) ∈ ((es.map Prod.fst) ++ (es.map Prod.snd)).zip
        ((es.map Prod.snd) ++ (es.map Prod.fst)) := by
      simpa [make_stargazer_graph, dgl_graph] using he
    have hm := List.of_mem_zip hz
    constructor
    · exact mem_le_foldr_max _ e.1 (List.mem_append_left _ hm.1)
    · exact mem_le_foldr_max _ e.2 (List.mem_append_right _ hm.2)
  · intro p hp
    rw [make_stargazer_graph_edges]
    constructor
    · exact List.mem_append_left _ hp
    · refine List.mem_append_right _ ?_
      have : (p.2, p.1) = Prod.swap p := rfl
      rw [this]
      exact List.mem_map_of_mem Prod.swap hp
  · rw [make_stargazer_graph_edges]
    simp [Nat.two_mul]

/-- Witness for C7 at the concrete edge list `[(0, 1)]`. -/
theorem make_graphs_bidirectional_valid_witness :
    ((0, 1) : ℕ × ℕ) ∈ [((0, 1) : ℕ × ℕ)] ∧
    ((0, 1) : ℕ × ℕ) ∈ (make_stargazer_graph [(0, 1)]).edges ∧
    ((1, 0) : ℕ × ℕ) ∈ (make_stargazer_graph [(0, 1)]).edges :=
  ⟨List.mem_singleton.mpr rfl,
    ((make_graphs_bidirectional_valid [(0, 1)]).2.1 (0, 1)
      (List.mem_singleton.mpr rfl)).1,
    ((make_graphs_bidirectional_valid [(0, 1)]).2.1 (0, 1)
      (List.mem_singleton.mpr rfl)).2⟩

/-- The file paths written by an effect trace. -/
def fileWrites (tr : List Effect) : List String :=
  tr.filterMap (fun e => match e with
    | Effect.fileWrite p => some p
    | _ => none)

theorem fileWrites_append (a b : List Effect) :
    fileWrites (a ++ b) = fileWrites a ++ fileWrites b :=
  List.filterMap_append a b _

theorem fileWrites_gae_epoch_trace (e : ℕ) :
    fileWrites (gae_epoch_trace e) = [] := by
  unfold gae_epoch_trace fileWrites
  split <;> rfl

theorem count_loss_gae_epoch_trace (e : ℕ) :
    (gae_epoch_trace e).count (Effect.scalarLog "loss") = 1 := by
  unfold gae_epoch_trace
  split <;> rfl

theorem train_gae_trace {σ : Type} (gs : σ → ℚ × σ) (evalF : σ → ℚ × ℚ)
    (s0 : σ) :
    (train_gae gs evalF s0).2.2
      = Effect.consolePrint "training gae"
          :: ((List.range 200).map gae_epoch_trace).flatten := by
  unfold train_gae
  rw [train_gae_loop_eq]
  rfl

theorem fileWrites_flatten_gae (l : List ℕ) :
    fileWrites ((l.map gae_epoch_trace).flatten) = [] := by
  induction l with
  | nil => rfl
  | cons a t ih =>
    rw [List.map_cons, List.flatten_cons, fileWrites_append,
      fileWrites_gae_epoch_trace, ih]
    rfl

theorem count_loss_flatten_gae (l : List ℕ) :
    ((l.map gae_epoch_trace).flatten).count (Effect.scalarLog "loss")
      = l.length := by
  induction l with
  | nil => rfl
  | cons a t ih =>
    rw [List.map_cons, List.flatten_cons, List.count_append,
      count_loss_gae_epoch_trace, ih, List.length_cons]
    omega

/-- Counterexample to claim C9: a run of the original code does write a
file.  On any `Data` whose `edge_index` is present (e.g. before
`train_test_split_edges`), `plot(data)` saves the rendered figure to its
`outfile` (`./graph.eps` by default), so its effect trace contains a file
write. -/
theorem no_persistence_counterexample :
    plot { edge_index := some [(0, 1)], num_nodes := 3, y := [0, 1, 0] }
        "./graph.eps"
      = Except.ok [Effect.fileWrite "./graph.eps",
          Effect.fileRead "./graph.eps", Effect.plotShow] ∧
    fileWrites [Effect.fileWrite "./graph.eps", Effect.fileRead "./graph.eps",
        Effect.plotShow] ≠ [] := by
  refine ⟨rfl, ?_⟩
  intro hcontra
  simp [fileWrites] at hcontra

/-- Claim C9 (amended): apart from the figure file that `plot` saves to its
`outfile` (default `./graph.eps`) and the `tensorboardX` scalar logs written
by the training loops under `./log/`, running the notebooks persists no
application state: a successful `plot` writes exactly its `outfile` and
nothing else, and `train_gae` writes no file, its durable output being
exactly one `loss` scalar log per epoch (200 in total) besides the `AUC`/`AP`
logs and console prints. -/
theorem no_persistence_amended {σ : Type} (data : PyGData) (outfile : String)
    (tr : List Effect) (h : plot data outfile = Except.ok tr)
    (gs : σ → ℚ × σ) (evalF : σ → ℚ × ℚ) (s0 : σ) :
    fileWrites tr = [outfile] ∧
    fileWrites (train_gae gs evalF s0).2.2 = [] ∧
    (train_gae gs evalF s0).2.2.count (Effect.scalarLog "loss") = 200 := by
  refine ⟨?_, ?_, ?_⟩
  · cases hei : data.edge_index with
    | none => rw [plot, hei] at h; cases h
    | some es =>
      rw [plot, hei] at h
      cases h
      rfl
  · rw [train_gae_trace]
    show fileWrites (Effect.consolePrint "training gae"
      :: ((List.range 200).map gae_epoch_trace).flatten) = []
    have := fileWrites_flatten_gae (List.range 200)
    simpa [fileWrites] using this
  · rw [train_gae_trace]
    rw [List.count_cons]
    rw [count_loss_flatten_gae, List.length_range]
    rfl

/-- Witness for C9's amended theorem at a concrete successful `plot` call
and a trivial training state. -/
theorem no_persistence_amended_witness :
    plot { edge_index := some [(0, 1)], num_nodes := 3, y := [0, 1, 0] }
        "./g.eps"
      = Except.ok [Effect.fileWrite "./g.eps", Effect.fileRead "./g.eps",
          Effect.plotShow] ∧
    fileWrites [Effect.fileWrite "./g.eps", Effect.fileRead "./g.eps",
        Effect.plotShow] = ["./g.eps"] ∧
    fileWrites (train_gae (fun _ : Unit => ((0 : ℚ), ()))
        (fun _ => ((0 : ℚ), (0 : ℚ))) ()).2.2 = [] :=
  ⟨rfl,
    (no_persistence_amended
        { edge_index := some [(0, 1)], num_nodes := 3, y := [0, 1, 0] }
        "./g.eps"
        [Effect.fileWrite "./g.eps", Effect.fileRead "./g.eps",
          Effect.plotShow] rfl
        (fun _ : Unit => ((0 : ℚ), ())) (fun _ => ((0 : ℚ), (0 : ℚ))) ()).1,
    (no_persistence_amended
        { edge_index := some [(0, 1)], num_nodes := 3, y := [0, 1, 0] }
        "./g.eps"
        [Effect.fileWrite "./g.eps", Effect.fileRead "./g.eps",
          Effect.plotShow] rfl
        (fun _ : Unit => ((0 : ℚ), ())) (fun _ => ((0 : ℚ), (0 : ℚ))) ()).2.1⟩

end GnnTutorial
